import Mathlib

/-!
Shallow embedding of the `ads` graph/workflow engine
(src/ads/graph/{models,crud,auto_workflow,finalize_helper}.py and
src/ads/mcp/tools/{graph,context}.py) and proofs about its claims.

Database rows become Lean structures, the SQLAlchemy session becomes an
explicit `Graph` state (lists in insertion order, so `.first()` becomes
`List.find?`), Python exceptions become `Except`/`Option` results, and the
unguarded recursion in `delete_workflow` is given an explicit fuel so that
its (non-)termination can be stated.  Wall-clock timestamps
(`created_at`, `updated_at`, `draft_updated_at`) are not modelled except
for `draftUpdatedAt`, which is kept as a presence flag because
`update_step_draft` stamps it.
-/

namespace Ads

/-- The 2-D position dict from `models.py` (`position = Column(JSON)`). -/
structure Position where
  x : Int
  y : Int
deriving Repr, DecidableEq

/-- The metadata dict fields the engine actually reads/writes
(`auto_workflow.py` writes `status`, `auto_created`, `parent_node_id`;
`created_at` inside metadata is a wall-clock string and is not modelled). -/
structure NodeMetadata where
  status : Option String := none
  autoCreated : Bool := false
  parentNodeId : Option String := none
deriving Repr, DecidableEq

/-- Model of the `Node` row from `models.py`. -/
structure Node where
  id : String
  type : String
  label : String
  content : Option String
  draftContent : Option String
  draftSourceType : Option String
  draftConversationId : Option String
  draftMessageId : Option Nat
  draftBasedOnVersion : Option Nat
  draftAiOriginalContent : Option String
  isDraft : Bool
  currentVersion : Nat
  draftUpdatedAt : Bool
  nodeMetadata : NodeMetadata
  position : Option Position
deriving Repr, DecidableEq

/-- Model of the `Edge` row from `models.py`. -/
structure Edge where
  id : String
  source : String
  target : String
  sourceHandle : String
  targetHandle : String
  label : String
  edgeType : String
  animated : Bool
deriving Repr, DecidableEq

/-- Model of the `NodeVersion` row from `models.py` (append-only audit trail). -/
structure NodeVersion where
  nodeId : String
  version : Nat
  content : Option String
  sourceType : Option String
  conversationId : Option String
  messageId : Option Nat
  basedOnVersion : Option Nat
  changeDescription : Option String
deriving Repr, DecidableEq

/-- The relational store: three tables in row-insertion order
(SQLAlchemy `.first()` on an unordered query returns the first inserted
matching row in SQLite, modelled by `List.find?`). -/
structure Graph where
  nodes : List Node
  edges : List Edge
  versions : List NodeVersion
deriving Repr, DecidableEq

/-- Python truthiness test `bool(content and str(content).strip())` used by
`GraphCRUD.create_node` and `on_node_finalized` (`crud.py` line 59,
`auto_workflow.py` line 463): the string strips to something non-empty
exactly when it has a non-whitespace character. -/
def hasContent : Option String → Bool
  | none => false
  | some s => s.data.any (fun c => !c.isWhitespace)

/-- One pass of Python `str.replace(pat, rep)` over the character list,
replacing non-overlapping occurrences left to right.  The fuel is the
length of the scanned list, which suffices because every step consumes at
least one character (`pat` is non-empty at every call site). -/
def pyReplaceLoop (pat rep : List Char) : Nat → List Char → List Char
  | _, [] => []
  | 0, s => s
  | fuel + 1, c :: rest =>
    if pat.isPrefixOf (c :: rest) then
      rep ++ pyReplaceLoop pat rep fuel ((c :: rest).drop pat.length)
    else c :: pyReplaceLoop pat rep fuel rest

/-- Python `s.replace(pat, rep)` for a non-empty `pat`. -/
def pyReplace (s pat rep : String) : String :=
  if pat.isEmpty then s
  else ⟨pyReplaceLoop pat.data rep.data s.data.length s.data⟩

namespace GraphCRUD

/-- The `Node` constructed by `GraphCRUD.create_node` (crud.py lines 43-87).
Argument defaults mirror the Python signature
(`content = ""`, `is_draft = False`). -/
def buildNode (id type label : String) (content : Option String := some "")
    (metadata : NodeMetadata := {}) (position : Option Position := none)
    (isDraft : Option Bool := some false) : Node :=
  let hasC := hasContent content
  let isDraftValue := match isDraft with
    | none => !hasC
    | some b => b
  let draftValue := if isDraftValue && hasC then content else none
  { id := id, type := type, label := label
    content := content
    draftContent := draftValue
    draftSourceType := none
    draftConversationId := none
    draftMessageId := none
    draftBasedOnVersion := none
    draftAiOriginalContent := none
    isDraft := isDraftValue
    currentVersion := if hasC && !isDraftValue then 1 else 0
    draftUpdatedAt := false
    nodeMetadata := metadata
    -- `position = position or {"x": 0, "y": 0}`
    position := some (position.getD { x := 0, y := 0 }) }

/-- Model of `GraphCRUD.create_node`: insert the freshly built row. -/
def createNode (g : Graph) (id type label : String)
    (content : Option String := some "") (metadata : NodeMetadata := {})
    (position : Option Position := none) (isDraft : Option Bool := some false) :
    Node × Graph :=
  let node := buildNode id type label content metadata position isDraft
  (node, { g with nodes := g.nodes ++ [node] })

/-- Model of `GraphCRUD.get_node_by_id`: `db.query(Node).filter(Node.id == node_id).first()`. -/
def getNodeById (g : Graph) (nodeId : String) : Option Node :=
  g.nodes.find? (fun n => n.id == nodeId)

/-- Model of `GraphCRUD.get_edges_from_node`: `db.query(Edge).filter(Edge.source == node_id).all()`. -/
def getEdgesFromNode (g : Graph) (nodeId : String) : List Edge :=
  g.edges.filter (fun e => e.source == nodeId)

/-- Model of `GraphCRUD.create_edge` (crud.py lines 186-216). -/
def createEdge (g : Graph) (id source target : String) (label : String := "")
    (edgeType : String := "next") (animated : Bool := false)
    (sourceHandle : String := "right") (targetHandle : String := "left") :
    Edge × Graph :=
  let edge : Edge :=
    { id := id, source := source, target := target
      sourceHandle := sourceHandle, targetHandle := targetHandle
      label := label, edgeType := edgeType, animated := animated }
  (edge, { g with edges := g.edges ++ [edge] })

/-- In-place mutation of one node row (SQLAlchemy object mutation followed
by flush), modelled by replacing the row with the matching primary key. -/
def replaceNode (g : Graph) (nodeId : String) (node : Node) : Graph :=
  { g with nodes := g.nodes.map (fun n => if n.id == nodeId then node else n) }

end GraphCRUD

/-! ### Python `str.format` templates

The prompt and label templates of `FLOW_RULES` are Python format strings.
A template is a list of segments: literal text and `\x7bname\x7d` slots.
`formatTemplate` substitutes slots left to right and, like Python
`str.format(**ctx)`, fails with the first missing key (`KeyError`). -/

inductive TSeg where
  | lit : String → TSeg
  | slot : String → TSeg
deriving Repr, DecidableEq

abbrev Template := List TSeg

/-- Dict lookup used for format contexts. -/
def ctxLookup : List (String × String) → String → Option String
  | [], _ => none
  | (k, v) :: rest, key => if k == key then some v else ctxLookup rest key

/-- Dict assignment `context[k] = v` (overwrites an existing key). -/
def ctxSet : List (String × String) → String → String → List (String × String)
  | [], k, v => [(k, v)]
  | (k', v') :: rest, k, v =>
    if k' == k then (k, v) :: rest else (k', v') :: ctxSet rest k v

/-- Model of `template.format(**ctx)`: error value is the first missing key. -/
def formatTemplate : Template → List (String × String) → Except String String
  | [], _ => .ok ""
  | .lit s :: rest, ctx => (formatTemplate rest ctx).map (fun t => s ++ t)
  | .slot k :: rest, ctx =>
    match ctxLookup ctx k with
    | none => .error k
    | some v => (formatTemplate rest ctx).map (fun t => v ++ t)

/-! ### `NodeTypeConfig.FLOW_RULES` (auto_workflow.py lines 107-296)

Each Python format string is transcribed as a `Template`; slots are the
`name`-in-braces references of the source string. -/

/-- One entry of `FLOW_RULES`. `none` plays Python `None` for
`next_type` / `label_template` / `next_label_template` (falsy ⇒ terminal
stage or absent template). -/
structure FlowRule where
  nextType : Option String
  labelTemplate : Option Template
  nextLabelTemplate : Option Template
  autoGenerate : Bool
  aiPromptTemplate : Template
deriving Repr, DecidableEq

def aggregateRule : FlowRule :=
  { nextType := some "requirement"
    labelTemplate := some [.slot "parent_label", .lit "-需求"]
    nextLabelTemplate := some [.slot "parent_label", .lit " - 需求分析"]
    autoGenerate := false
    aiPromptTemplate := [] }

def requirementRule : FlowRule :=
  { nextType := some "design"
    labelTemplate := some [.slot "parent_label", .lit "-设计"]
    nextLabelTemplate := some [.slot "parent_label", .lit " - 设计方案"]
    autoGenerate := true
    aiPromptTemplate :=
      [.lit "请基于以下需求分析，生成详细的设计方案：\n\n需求内容：\n",
       .slot "parent_content",
       .lit "\n\n请包含：\n1. 技术架构设计\n2. 核心模块划分\n3. 接口设计\n4. 数据模型设计\n5. 关键流程设计"] }

def designRule : FlowRule :=
  { nextType := some "implementation"
    labelTemplate := some [.slot "parent_label", .lit "-实现"]
    nextLabelTemplate := some [.slot "parent_label", .lit " - 实现方案"]
    autoGenerate := true
    aiPromptTemplate :=
      [.lit "请基于以下设计方案，生成详细的实现方案：\n\n需求：\n",
       .slot "requirement_content",
       .lit "\n\n设计方案：\n",
       .slot "parent_content",
       .lit "\n\n请包含：\n1. 技术栈选型\n2. 目录结构\n3. 核心代码实现要点\n4. 关键类和方法说明\n5. 实现步骤"] }

def implementationRule : FlowRule :=
  { nextType := some "test"
    labelTemplate := some [.slot "parent_label", .lit "-测试"]
    nextLabelTemplate := some [.slot "parent_label", .lit " - 测试方案"]
    autoGenerate := true
    aiPromptTemplate :=
      [.lit "请基于以下实现方案，生成测试方案：\n\n需求：\n",
       .slot "requirement_content",
       .lit "\n\n设计：\n",
       .slot "design_content",
       .lit "\n\n实现方案：\n",
       .slot "parent_content",
       .lit "\n\n请包含：\n1. 单元测试计划\n2. 集成测试计划\n3. 测试用例列表\n4. 测试数据准备\n5. 验收标准"] }

def testRule : FlowRule :=
  { nextType := none
    labelTemplate := none
    nextLabelTemplate := none
    autoGenerate := false
    aiPromptTemplate := [] }

def integrationTestRule : FlowRule :=
  { nextType := some "code_review"
    labelTemplate := some [.slot "parent_label", .lit "-代码评审"]
    nextLabelTemplate := some [.slot "parent_label", .lit " - 代码评审"]
    autoGenerate := true
    aiPromptTemplate :=
      [.lit "请基于以下测试结果，生成代码评审报告：\n\n实现方案：\n",
       .slot "implementation_content",
       .lit "\n\n测试结果：\n",
       .slot "parent_content",
       .lit "\n\n请包含：\n1. 代码质量评估\n2. 架构合理性\n3. 安全性检查\n4. 性能优化建议\n5. 改进建议"] }

def codeReviewRule : FlowRule :=
  { nextType := some "documentation"
    labelTemplate := some [.slot "parent_label", .lit "-文档"]
    nextLabelTemplate := some [.slot "parent_label", .lit " - 文档"]
    autoGenerate := true
    aiPromptTemplate :=
      [.lit "请基于以下内容，生成技术文档：\n\n需求：\n",
       .slot "requirement_content",
       .lit "\n\n设计：\n",
       .slot "design_content",
       .lit "\n\n实现：\n",
       .slot "implementation_content",
       .lit "\n\n评审意见：\n",
       .slot "parent_content",
       .lit "\n\n请包含：\n1. 功能说明\n2. API文档\n3. 使用指南\n4. 部署说明\n5. 常见问题"] }

def documentationRule : FlowRule :=
  { nextType := none
    labelTemplate := none
    nextLabelTemplate := none
    autoGenerate := false
    aiPromptTemplate := [] }

def bugReportRule : FlowRule :=
  { nextType := some "bug_analysis"
    labelTemplate := some [.slot "parent_label", .lit "-分析"]
    nextLabelTemplate := some [.slot "parent_label", .lit " - 问题分析"]
    autoGenerate := true
    aiPromptTemplate :=
      [.lit "请分析以下Bug报告：\n\nBug描述：\n",
       .slot "parent_content",
       .lit "\n\n请提供：\n1. 问题根因分析\n2. 影响范围评估\n3. 可能的解决方案\n4. 风险评估"] }

def bugAnalysisRule : FlowRule :=
  { nextType := some "bug_fix"
    labelTemplate := some [.slot "parent_label", .lit "-修复"]
    nextLabelTemplate := some [.slot "parent_label", .lit " - 修复方案"]
    autoGenerate := true
    aiPromptTemplate :=
      [.lit "请基于以下问题分析，提供修复方案：\n\nBug报告：\n",
       .slot "bug_report_content",
       .lit "\n\n问题分析：\n",
       .slot "parent_content",
       .lit "\n\n请提供：\n1. 具体修复步骤\n2. 代码修改点\n3. 配置调整\n4. 数据迁移方案（如需要）"] }

def bugFixRule : FlowRule :=
  { nextType := some "bug_verify"
    labelTemplate := some [.slot "parent_label", .lit "-验证"]
    nextLabelTemplate := some [.slot "parent_label", .lit " - 验证方案"]
    autoGenerate := true
    aiPromptTemplate :=
      [.lit "请为以下修复方案提供验证计划：\n\n修复方案：\n",
       .slot "parent_content",
       .lit "\n\n请提供：\n1. 验证步骤\n2. 回归测试计划\n3. 验收标准\n4. 回滚预案"] }

def bugVerifyRule : FlowRule :=
  { nextType := none
    labelTemplate := none
    nextLabelTemplate := none
    autoGenerate := false
    aiPromptTemplate := [] }

/-- Model of `NodeTypeConfig.get_next_config`: dictionary lookup in `FLOW_RULES`. -/
def flowRules : String → Option FlowRule
  | "aggregate" => some aggregateRule
  | "requirement" => some requirementRule
  | "design" => some designRule
  | "implementation" => some implementationRule
  | "test" => some testRule
  | "integration_test" => some integrationTestRule
  | "code_review" => some codeReviewRule
  | "documentation" => some documentationRule
  | "bug_report" => some bugReportRule
  | "bug_analysis" => some bugAnalysisRule
  | "bug_fix" => some bugFixRule
  | "bug_verify" => some bugVerifyRule
  | _ => none

/-- Model of `EdgeTypeConfig.get_all_edge_types` (edge_types.py): the closed edge-type
enumeration. -/
def allEdgeTypes : List String := ["next", "contain", "reference"]

/-! ### `GraphCRUD.get_parent_nodes` (crud.py lines 301-346)

The Python `while True` loop walks one parent edge at a time
(`.first()` on `Edge.target == current_id, Edge.source != current_id`,
i.e. self-edges are excluded), keeps a `seen_ids` set and breaks on a
repeat.  The loop is modelled with explicit fuel; the termination theorem
for claim C4 shows that fuel `g.nodes.length + 1` always suffices. -/

namespace GraphCRUD

/-- The edge query of one loop iteration. -/
def parentEdgeQuery (g : Graph) (currentId : String) : Option Edge :=
  g.edges.find? (fun e => e.target == currentId && e.source != currentId)

/-- One fuel-indexed unfolding of the `while True` loop of
`get_parent_nodes`; `none` means the fuel ran out (which, for this loop,
the theorems show cannot happen at fuel `g.nodes.length + 1`).
`acc` holds the collected parents in reverse order. -/
def getParentNodesLoop (g : Graph) (recursive : Bool) :
    Nat → String → List String → List Node → Option (List Node)
  | 0, _, _, _ => none
  | fuel + 1, currentId, seenIds, acc =>
    match parentEdgeQuery g currentId with
    | none => some acc.reverse
    | some edge =>
      match getNodeById g edge.source with
      | none => some acc.reverse
      | some parent =>
        if parent.id ∈ seenIds then some acc.reverse
        else if recursive then
          getParentNodesLoop g recursive fuel edge.source (parent.id :: seenIds)
            (parent :: acc)
        else some (parent :: acc).reverse

/-- Model of `GraphCRUD.get_parent_nodes` with the canonical sufficient fuel. -/
def getParentNodes (g : Graph) (nodeId : String) (recursive : Bool := true) :
    Option (List Node) :=
  getParentNodesLoop g recursive (g.nodes.length + 1) nodeId [] []

/-- Total version used where the Python caller just consumes the returned
list (`_build_ai_prompt`); the C4 termination theorem shows the default
never applies. -/
def parentNodesList (g : Graph) (nodeId : String) : List Node :=
  (getParentNodes g nodeId true).getD []

end GraphCRUD

/-! ### `AutoWorkflowEngine` (auto_workflow.py lines 304-620) -/

namespace AutoWorkflowEngine

/-- The stage suffixes stripped from the parent label by
`_create_next_node` (auto_workflow.py lines 515-517); Python
`str.replace(suffix, "")` removes every occurrence, as does
`String.replace`. -/
def knownStageSuffixes : List String :=
  [" - 需求分析", " - 设计方案", " - 实现方案", " - 测试方案",
   " - 问题分析", " - 修复方案", " - 验证方案"]

def stripStageSuffixes (label : String) : String :=
  knownStageSuffixes.foldl (fun l suffix => pyReplace l suffix "") label

/-- Model of `label_template.format(parent_label=...)`.  The label templates of
`FLOW_RULES` reference only the `parent_label` slot, so the format never
raises; an unknown slot is mapped to `""` to keep the function total. -/
def renderLabelTemplate (t : Template) (parentLabel : String) : String :=
  (formatTemplate t [("parent_label", parentLabel)]).toOption.getD ""

/-- Model of `AutoWorkflowEngine._find_next_node` (auto_workflow.py lines 492-509):
scan outgoing edges, skip self-edges (`edge.target == parent_id`), and
return the first target node whose type equals `next_type`. -/
def findNextNode (g : Graph) (parentId nextType : String) : Option Node :=
  (GraphCRUD.getEdgesFromNode g parentId).findSome? fun edge =>
    if edge.target == parentId then none
    else
      match GraphCRUD.getNodeById g edge.target with
      | some candidate =>
        if candidate.type == nextType then some candidate else none
      | none => none

/-- Model of `AutoWorkflowEngine._create_next_node` (auto_workflow.py lines
511-563).  The two `uuid` draws are passed in as `nextNodeId` / `edgeId`;
the metadata `created_at` timestamp is not modelled. -/
def createNextNode (g : Graph) (parentNode : Node) (flowConfig : FlowRule)
    (nextNodeId edgeId : String) : Node × Graph :=
  let parentLabelClean := stripStageSuffixes parentNode.label
  -- `flow_config.get("label_template") or flow_config.get("next_label_template")`
  let labelTemplate := match flowConfig.labelTemplate with
    | some t => some t
    | none => flowConfig.nextLabelTemplate
  let nextLabel := match labelTemplate with
    | some t => renderLabelTemplate t parentLabelClean
    | none => parentLabelClean
  let parentPos := parentNode.position.getD { x := 100, y := 100 }
  let nextPosition : Position := { x := parentPos.x + 350, y := parentPos.y }
  let (nextNode, g₁) := GraphCRUD.createNode g nextNodeId
    -- `flow_config["next_type"]`; `on_node_finalized` guards that it is set
    (flowConfig.nextType.getD "") nextLabel (some "")
    { status := some "in_progress", autoCreated := true
      parentNodeId := some parentNode.id }
    (some nextPosition) (some true)
  let (_, g₂) := GraphCRUD.createEdge g₁ edgeId parentNode.id nextNode.id
    "自动流转" "references" false "right" "left"
  (nextNode, g₂)

/-- Model of `ancestor.content or "无"` (falsy ⇒ the literal placeholder). -/
def ancestorText (ancestor : Node) : String :=
  match ancestor.content with
  | some s => if s.isEmpty then "无" else s
  | none => "无"

/-- One iteration of the ancestor loop of `_build_ai_prompt`: bucket the
ancestor's finalized content by type; `aggregate` content is held aside. -/
def bucketAncestor (st : List (String × String) × Option String)
    (ancestor : Node) : List (String × String) × Option String :=
  let (ctx, aggregateContent) := st
  let text := ancestorText ancestor
  if ancestor.type == "requirement" then
    (ctxSet ctx "requirement_content" text, aggregateContent)
  else if ancestor.type == "design" then
    (ctxSet ctx "design_content" text, aggregateContent)
  else if ancestor.type == "bug_report" then
    (ctxSet ctx "bug_report_content" text, aggregateContent)
  else if ancestor.type == "aggregate" then
    (ctx, some text)
  else (ctx, aggregateContent)

/-- The whole context-building phase of `_build_ai_prompt`: seed with the
parent content, bucket all ancestors, and let aggregate content stand in
for a missing requirement. -/
def buildPromptContext (parentNode : Node) (ancestors : List Node) :
    List (String × String) :=
  let ctx₀ : List (String × String) :=
    [("parent_content", parentNode.content.getD "")]
  let (ctx₁, aggregateContent) := ancestors.foldl bucketAncestor (ctx₀, none)
  match aggregateContent with
  | some aggText =>
    if ctxLookup ctx₁ "requirement_content" = none then
      ctxSet ctx₁ "requirement_content" aggText
    else ctx₁
  | none => ctx₁

/-- Model of `AutoWorkflowEngine._build_ai_prompt` (auto_workflow.py lines 565-620).
The ancestor loop buckets finalized content by type
(`ancestor.content or "无"`) and the final `str.format` falls back to a
fixed four-slot context on `KeyError`; a `KeyError` of the fallback
(e.g. a template slot like `implementation_content` that neither pass
supplies) propagates to the caller, modelled by `Except.error key`.
`rulesContext` is the best-effort `_get_project_rules()` text (empty
string when the lookup fails). -/
def buildAiPrompt (g : Graph) (parentNode : Node) (flowConfig : FlowRule)
    (rulesContext : String := "") : Except String String :=
  if flowConfig.aiPromptTemplate.isEmpty then .ok ""
  else
    let ancestors := GraphCRUD.parentNodesList g parentNode.id
    let ctx := buildPromptContext parentNode ancestors
    let formatted := match formatTemplate flowConfig.aiPromptTemplate ctx with
      | .ok prompt => Except.ok prompt
      | .error _ =>
        formatTemplate flowConfig.aiPromptTemplate
          [("parent_content", (ctxLookup ctx "parent_content").getD ""),
           ("requirement_content", (ctxLookup ctx "requirement_content").getD "无"),
           ("design_content", (ctxLookup ctx "design_content").getD "无"),
           ("bug_report_content", (ctxLookup ctx "bug_report_content").getD "无")]
    formatted.map fun prompt =>
      if rulesContext.isEmpty then prompt
      else
        prompt ++ "\n\n## 项目规则和约束\n\n请确保生成的内容遵循以下项目规则：\n\n"
          ++ rulesContext ++ "\n"

/-- The `ai_generation` block of the transition result dictionary. -/
inductive AiGeneration where
  /-- Case `enabled=True` with the built prompt. -/
  | enabled (prompt : String)
  /-- Case `enabled=False, reason="parent_node_empty"`. -/
  | parentEmpty
  /-- Case `enabled=False, reason="generation_error"` with the caught error. -/
  | generationError (error : String)
deriving Repr, DecidableEq

/-- The transition result dictionary of `on_node_finalized` (the duplicate
`id`/`node_id` and `label`/`node_label` keys carry the same values and are
kept once). `aiGeneration = none` models a result without an
`ai_generation` key (AI generation not attempted). -/
structure TransitionResult where
  nodeId : String
  type : String
  label : String
  aiGeneration : Option AiGeneration
deriving Repr, DecidableEq

/-- Model of `AutoWorkflowEngine.on_node_finalized` (auto_workflow.py lines
321-490).  The two `uuid` draws of `_create_next_node` arrive as
`freshNodeId` / `freshEdgeId`; `rulesContext` is the project-rules
excerpt. Returns the Python return value together with the updated
store. -/
def onNodeFinalized (g : Graph) (nodeId : String) (enableAi : Bool := true)
    (freshNodeId : String := "") (freshEdgeId : String := "")
    (rulesContext : String := "") : Option TransitionResult × Graph :=
  match GraphCRUD.getNodeById g nodeId with
  | none => (none, g)
  | some node =>
    match flowRules node.type with
    | none => (none, g)
    | some flowConfig =>
      match flowConfig.nextType with
      | none => (none, g)
      | some nextType =>
        match findNextNode g nodeId nextType with
        | some _ => (none, g)
        | none =>
          let (nextNode, g') := createNextNode g node flowConfig freshNodeId freshEdgeId
          let aiGeneration : Option AiGeneration :=
            if enableAi && flowConfig.autoGenerate then
              if !hasContent node.content then some .parentEmpty
              else
                -- the prompt is built on the session state after the
                -- successor node and edge were flushed
                match buildAiPrompt g' node flowConfig rulesContext with
                | .ok prompt => some (.enabled prompt)
                | .error exc => some (.generationError exc)
            else none
          (some { nodeId := nextNode.id, type := nextNode.type
                  label := nextNode.label, aiGeneration := aiGeneration }, g')

end AutoWorkflowEngine

/-! ### Lifecycle: draft update and finalize
(`finalize_helper.py` lines 19-98, `mcp/tools/context.py`
`update_step_draft` and `finalize_step`, `mcp/tools/graph.py`
`finalize_node`). -/

inductive FinalizeError where
  /-- Case `NodeNotFoundException("Node not found")`. -/
  | nodeNotFound
  /-- Case `InvalidOperationException` with its message. -/
  | invalidOperation (message : String)
deriving Repr, DecidableEq

/-- Model of `validate_node_for_finalization` (finalize_helper.py lines 19-40). -/
def validateNodeForFinalization (g : Graph) (nodeId : String) :
    Except FinalizeError Node :=
  match GraphCRUD.getNodeById g nodeId with
  | none => .error .nodeNotFound
  | some node =>
    if !node.isDraft then .error (.invalidOperation "没有草稿可以定稿")
    else .ok node

/-- Model of `create_node_version` (finalize_helper.py lines 43-70):
`new_version = (node.current_version or 0) + 1` and a snapshot row of the
draft fields. -/
def createNodeVersion (node : Node) (changeDescription : Option String) :
    NodeVersion × Nat :=
  let newVersion := node.currentVersion + 1
  ({ nodeId := node.id, version := newVersion
     content := node.draftContent
     sourceType := node.draftSourceType
     conversationId := node.draftConversationId
     messageId := node.draftMessageId
     basedOnVersion := node.draftBasedOnVersion
     changeDescription := changeDescription }, newVersion)

/-- Model of `update_node_content` (finalize_helper.py lines 73-82); `updated_at`
is a wall-clock stamp and is not modelled. -/
def updateNodeContent (node : Node) (newVersion : Nat) : Node :=
  { node with content := node.draftContent, currentVersion := newVersion }

/-- Model of `clear_draft` (finalize_helper.py lines 85-98). -/
def clearDraft (node : Node) : Node :=
  { node with
    draftContent := none
    draftSourceType := none
    draftConversationId := none
    draftMessageId := none
    draftBasedOnVersion := none
    draftAiOriginalContent := none
    isDraft := false
    draftUpdatedAt := false }

/-- The draft mutation applied by `update_step_draft`
(mcp/tools/context.py): set the draft, mark the node draft, stamp the
draft time, and infer `draft_source_type` / `draft_based_on_version` when
no source type is recorded yet. -/
def applyUpdateDraft (node : Node) (content : String) : Node :=
  let node₁ := { node with
    draftContent := some content
    isDraft := true
    draftUpdatedAt := true }
  match node₁.draftSourceType with
  | some _ => node₁
  | none =>
    if node₁.currentVersion == 0 then
      { node₁ with draftSourceType := some "manual_created" }
    else
      { node₁ with
        draftSourceType := some "manual_modified"
        draftBasedOnVersion := some node₁.currentVersion }

/-- Model of `update_step_draft`, database portion (mcp/tools/context.py lines
484-506): look the node up and apply the draft mutation. -/
def updateDraft (g : Graph) (nodeId : String) (content : String) :
    Option Graph :=
  match GraphCRUD.getNodeById g nodeId with
  | none => none
  | some node => some (GraphCRUD.replaceNode g nodeId (applyUpdateDraft node content))

/-- The single-node effect of a successful finalize (`finalize_step`'s
validate → snapshot → update → clear sequence applied to one row). -/
def finalizeNodeRecord (node : Node) (changeDescription : Option String) :
    Node × NodeVersion :=
  let (version, newVersion) := createNodeVersion node changeDescription
  (clearDraft (updateNodeContent node newVersion), version)

/-- Model of `finalize_step`, database portion (mcp/tools/context.py lines
566-578): validate, append the `NodeVersion` snapshot, commit the draft
into `content`/`current_version` and clear the draft area — all inside
one transaction (an error leaves the store untouched). -/
def finalizeStep (g : Graph) (nodeId : String)
    (changeDescription : Option String := none) : Except FinalizeError Graph :=
  match validateNodeForFinalization g nodeId with
  | .error e => .error e
  | .ok node =>
    let (node', version) := finalizeNodeRecord node changeDescription
    .ok { GraphCRUD.replaceNode g nodeId node' with
          versions := g.versions ++ [version] }

/-- The `finalize_node` MCP tool (mcp/tools/graph.py lines 398-435):
`GraphCRUD.update_node(node_id, {"is_draft": False})` — it only clears the
flag, leaving every other draft field in place. -/
def finalizeNodeTool (g : Graph) (nodeId : String) : Graph :=
  { g with nodes := g.nodes.map fun n =>
      if n.id == nodeId then { n with isDraft := false } else n }

/-! ### `delete_workflow` (mcp/tools/context.py lines 788-931) -/

namespace DeleteWorkflow

/-- Python `str.isdigit()` (true on a non-empty all-digit string). -/
def isDigitStr (s : String) : Bool :=
  !s.isEmpty && s.toList.all Char.isDigit

/-- Python `sub in s` on lowercased strings (fuzzy title match). -/
def containsSubstr (s sub : String) : Bool :=
  sub.isEmpty || (s.splitOn sub).length > 1

/-- Workflow roots: nodes with no incoming edges, in node insertion
order. -/
def workflowRoots (g : Graph) : List Node :=
  g.nodes.filter fun n => (g.edges.filter (fun e => e.target == n.id)).isEmpty

/-- Resolution of the `workflow_id` argument: 1-based index for digit
strings, then exact node-id match, then case-insensitive substring match
on root labels. -/
def resolveRoot (g : Graph) (workflowId : String) : Option Node :=
  let roots := workflowRoots g
  let byIndex : Option Node :=
    if isDigitStr workflowId then
      match workflowId.toNat? with
      | some k => if 1 ≤ k then roots.get? (k - 1) else none
      | none => none
    else none
  match byIndex with
  | some root => some root
  | none =>
    match GraphCRUD.getNodeById g workflowId with
    | some node => some node
    | none =>
      roots.find? fun n =>
        containsSubstr n.label.toLower workflowId.toLower

/-- Model of `get_all_downstream_nodes` (mcp/tools/context.py lines 857-863):

    nodes = [node_id]
    for edge in edges_from(node_id): nodes.extend(recurse(edge.target))
    return list(set(nodes))

The Python helper recurses without a visited set; the fuel makes the
recursion a total Lean function, with `none` standing for a recursion
that never reaches a base case (Python `RecursionError`).  `list(set(…))`
de-duplicates with unspecified order, modelled by `List.dedup`. -/
def getAllDownstreamNodes (g : Graph) : Nat → String → Option (List String)
  | 0, _ => none
  | fuel + 1, nodeId =>
    let collected := (GraphCRUD.getEdgesFromNode g nodeId).foldl
      (fun acc edge =>
        match acc with
        | none => none
        | some l =>
          match getAllDownstreamNodes g fuel edge.target with
          | none => none
          | some l' => some (l ++ l'))
      (some [nodeId])
    collected.map List.dedup

/-- The deletion loop: for each collected id delete its outgoing edges,
then the node itself (`NodeVersion` rows cascade with the node via the
`ondelete="CASCADE"` foreign key).  Returns the store and the
deleted-node / deleted-edge counts. -/
def deleteNodesLoop (g : Graph) : List String → Graph × Nat × Nat
  | [] => (g, 0, 0)
  | nodeId :: rest =>
    let outgoing := GraphCRUD.getEdgesFromNode g nodeId
    let g₁ := { g with edges := g.edges.filter (fun e => !(e.source == nodeId)) }
    let (g₂, foundNode) :=
      match GraphCRUD.getNodeById g₁ nodeId with
      | some _ =>
        ({ g₁ with
           nodes := g₁.nodes.filter (fun n => !(n.id == nodeId))
           versions := g₁.versions.filter (fun v => !(v.nodeId == nodeId)) }, 1)
      | none => (g₁, 0)
    let (g₃, dn, de) := deleteNodesLoop g₂ rest
    (g₃, foundNode + dn, outgoing.length + de)

/-- The workspace context portion `delete_workflow` touches:
`active.get("workflow_id")` of the persisted context file. -/
structure CtxState where
  graph : Graph
  activeWorkflowId : Option String
deriving Repr, DecidableEq

inductive DeleteResult where
  /-- Case "工作流不存在". -/
  | notFound
  /-- Case "无法删除活动工作流" (safe delete of the active workflow). -/
  | activeRefused
  /-- Case "工作流未完成，无法安全删除" (safe delete with a draft in the closure). -/
  | draftRefused
  /-- recursion of `get_all_downstream_nodes` never reached a base case
  (Python `RecursionError`, rendered as "❌ Error" by the `except`). -/
  | recursionError
  /-- Case "✅ 工作流已删除" with deleted-node / deleted-edge counts. -/
  | deleted (nodes edges : Nat)
deriving Repr, DecidableEq

/-- Model of `delete_workflow` (mcp/tools/context.py lines 788-931), minus the
filesystem projection (spec-dir removal).  `fuel` bounds the unguarded
closure recursion. -/
def deleteWorkflow (st : CtxState) (workflowId : String) (force : Bool)
    (fuel : Nat) : DeleteResult × CtxState :=
  match resolveRoot st.graph workflowId with
  | none => (.notFound, st)
  | some rootNode =>
    let isActive := st.activeWorkflowId == some rootNode.id
    if isActive && !force then (.activeRefused, st)
    else
      -- safe-delete draft check (`if not force:`)
      let draftCheck : Option DeleteResult :=
        if force then none
        else
          match getAllDownstreamNodes st.graph fuel rootNode.id with
          | none => some .recursionError
          | some relatedIds =>
            if relatedIds.any (fun i =>
                match GraphCRUD.getNodeById st.graph i with
                | some n => n.isDraft
                | none => false) then
              some .draftRefused
            else none
      match draftCheck with
      | some r => (r, st)
      | none =>
        match getAllDownstreamNodes st.graph fuel rootNode.id with
        | none => (.recursionError, st)
        | some allNodeIds =>
          let (g', dn, de) := deleteNodesLoop st.graph allNodeIds
          (DeleteResult.deleted dn de,
           { graph := g'
             activeWorkflowId := if isActive then none else st.activeWorkflowId })

end DeleteWorkflow

/-! ### Specification-level predicates -/

/-- The node-state invariant of the spec (§3 / §8): `currentVersion == 0`
iff the finalized content is empty, and `isDraft` iff a draft is
pending. -/
def nodeStateInvariant (n : Node) : Prop :=
  ((n.currentVersion = 0) ↔ (hasContent n.content = false)) ∧
  ((n.isDraft = true) ↔ n.draftContent ≠ none)

instance (n : Node) : Decidable (nodeStateInvariant n) := by
  unfold nodeStateInvariant; infer_instance

/-- Node states reachable through the lifecycle operations that maintain
the state invariant: `create_node` without an explicit draft request,
`update_step_draft` with non-blank text, and the version-snapshotting
finalize of `finalize_helper.py`. -/
inductive NodeReachable : Node → Prop
  | create (id type label : String) (content : Option String)
      (metadata : NodeMetadata) (position : Option Position) :
      NodeReachable (GraphCRUD.buildNode id type label content metadata position (some false))
  | draft (n : Node) (text : String) : NodeReachable n →
      hasContent (some text) = true → NodeReachable (applyUpdateDraft n text)
  | finalize (n : Node) (changeDescription : Option String) : NodeReachable n →
      n.isDraft = true → NodeReachable (finalizeNodeRecord n changeDescription).1

/-- Relation: `p` is an immediate parent of the node with id `childId`: some edge
(not a self-edge) runs from `p` to that node. -/
def isParentEdgeOf (g : Graph) (childId : String) (p : Node) : Prop :=
  p ∈ g.nodes ∧ ∃ e ∈ g.edges, e.target = childId ∧ e.source = p.id ∧ e.source ≠ e.target

/-- Nearest-to-farthest ancestor order: each listed node is an immediate
parent of the previous one (the first of the start node itself). -/
inductive ParentChain (g : Graph) : String → List Node → Prop
  | nil (c : String) : ParentChain g c []
  | cons (c : String) (p : Node) (rest : List Node) :
      isParentEdgeOf g c p → ParentChain g p.id rest → ParentChain g c (p :: rest)

/-- The distinct node ids of the store. -/
def nodeIdsSet (g : Graph) : Finset String := (g.nodes.map Node.id).toFinset

/-! ### Concrete sample stores used by witnesses and counterexamples -/

/-- A finalized `requirement` node with blank content. -/
def emptyReqNode : Node :=
  GraphCRUD.buildNode "R" "requirement" "用户管理" (some "") {} none (some false)

def emptyReqGraph : Graph := ⟨[emptyReqNode], [], []⟩

/-- Result of `create_node` called with seed content and an explicit draft request. -/
def draftSeedNode : Node :=
  GraphCRUD.buildNode "n1" "requirement" "R" (some "X") {} none (some true)

def draftSeedGraph : Graph := ⟨[draftSeedNode], [], []⟩

/-- A finalized `code_review` node with content, alone in the store. -/
def codeReviewNode : Node :=
  GraphCRUD.buildNode "cr" "code_review" "评审" (some "评审意见") {} none (some false)

def codeReviewGraph : Graph := ⟨[codeReviewNode], [], []⟩

/-- A two-node workflow: finalized root `r1` with one draft child `d1`. -/
def wfRootNode : Node :=
  GraphCRUD.buildNode "r1" "requirement" "Feat" (some "done") {} none (some false)

def wfDraftNode : Node :=
  GraphCRUD.buildNode "d1" "design" "Feat-设计" (some "") {} none (some true)

def wfGraph : Graph :=
  ⟨[wfRootNode, wfDraftNode],
   [⟨"e1", "r1", "d1", "right", "left", "", "next", false⟩], []⟩

/-- A root whose downstream edges contain a directed cycle:
`root → A`, `A → B`, `B → A`. -/
def cycGraph : Graph :=
  ⟨[GraphCRUD.buildNode "root" "aggregate" "Root",
    GraphCRUD.buildNode "A" "design" "A",
    GraphCRUD.buildNode "B" "implementation" "B"],
   [⟨"e1", "root", "A", "right", "left", "", "next", false⟩,
    ⟨"e2", "A", "B", "right", "left", "", "next", false⟩,
    ⟨"e3", "B", "A", "right", "left", "", "next", false⟩], []⟩

/-- A parent node carrying a stage-suffixed label and a position. -/
def suffixedParentNode : Node :=
  { GraphCRUD.buildNode "p" "requirement" "用户管理 - 需求分析" (some "内容") {} none (some false) with
    position := some ⟨200, 80⟩ }

/-! ## Helper lemmas -/

lemma getNodeById_id {g : Graph} {i : String} {n : Node}
    (h : GraphCRUD.getNodeById g i = some n) : n.id = i := by
  have := List.find?_some h
  simpa using this

lemma getNodeById_mem {g : Graph} {i : String} {n : Node}
    (h : GraphCRUD.getNodeById g i = some n) : n ∈ g.nodes :=
  List.mem_of_find?_eq_some h

lemma getNodeById_eq_none {g : Graph} {i : String}
    (h : ∀ n ∈ g.nodes, n.id ≠ i) : GraphCRUD.getNodeById g i = none := by
  unfold GraphCRUD.getNodeById
  rw [List.find?_eq_none]
  intro n hn
  simpa using h n hn

/-! ## C6: empty-parent generation skip -/

/-- C6: finalizing a `requirement` node whose finalized content is blank,
with generation enabled and the rule's `autoGenerate` true, creates a
successor of type `design` and reports the generation block explicitly
disabled with reason `parent_node_empty`. -/
theorem emptyParentSkipsGeneration :
    (AutoWorkflowEngine.onNodeFinalized emptyReqGraph "R" true "n1" "e1" "").1 =
      some ⟨"n1", "design", "用户管理-设计",
            some AutoWorkflowEngine.AiGeneration.parentEmpty⟩ ∧
    requirementRule.autoGenerate = true ∧
    hasContent emptyReqNode.content = false ∧
    (GraphCRUD.getNodeById
        (AutoWorkflowEngine.onNodeFinalized emptyReqGraph "R" true "n1" "e1" "").2
        "n1").map Node.type = some "design" := by
  refine ⟨by rfl, by rfl, by rfl, by rfl⟩

/-! ## C7: CreateNode initial state -/

/-- C7 counterexample: a `create_node` call with no seed content and no
explicit draft request produces a node with `isDraft = false` and no
draft content — it does not start in draft state, contrary to the claim's
"otherwise the node starts as a draft". -/
theorem createNodeDefaultNotDraft :
    (GraphCRUD.buildNode "n1" "requirement" "R").isDraft = false ∧
    (GraphCRUD.buildNode "n1" "requirement" "R").draftContent = none ∧
    (GraphCRUD.buildNode "n1" "requirement" "R").currentVersion = 0 := by
  decide

/-- C7 (amended): with non-blank content and no draft request the node
starts finalized at version 1; with an explicit draft request it starts
as a draft (version 0) holding non-blank seed content in `draftContent`;
with `is_draft = None` draft state is inferred as the absence of content;
and with blank content and no draft request it starts non-draft at
version 0 (not as a draft). -/
theorem createNodeInitialState (id type label : String) (content : Option String)
    (md : NodeMetadata) (pos : Option Position) (isDraft : Option Bool) :
    (hasContent content = true → isDraft = some false →
      (GraphCRUD.buildNode id type label content md pos isDraft).currentVersion = 1 ∧
      (GraphCRUD.buildNode id type label content md pos isDraft).isDraft = false ∧
      (GraphCRUD.buildNode id type label content md pos isDraft).draftContent = none) ∧
    (isDraft = some true →
      (GraphCRUD.buildNode id type label content md pos isDraft).isDraft = true ∧
      (GraphCRUD.buildNode id type label content md pos isDraft).currentVersion = 0 ∧
      (GraphCRUD.buildNode id type label content md pos isDraft).draftContent =
        (if hasContent content then content else none)) ∧
    (isDraft = none →
      (GraphCRUD.buildNode id type label content md pos isDraft).isDraft =
        !hasContent content) ∧
    (hasContent content = false → isDraft = some false →
      (GraphCRUD.buildNode id type label content md pos isDraft).isDraft = false ∧
      (GraphCRUD.buildNode id type label content md pos isDraft).currentVersion = 0 ∧
      (GraphCRUD.buildNode id type label content md pos isDraft).draftContent = none) := by
  refine ⟨?_, ?_, ?_, ?_⟩
  · intro hc hd; subst hd; simp [GraphCRUD.buildNode, hc]
  · intro hd; subst hd
    cases hc : hasContent content <;> simp [GraphCRUD.buildNode, hc]
  · intro hd; subst hd; simp [GraphCRUD.buildNode]
  · intro hc hd; subst hd; simp [GraphCRUD.buildNode, hc]

/-- Witness for C7: a draft-requested creation with seed content "X"
holds it in `draftContent` at version 0. -/
theorem createNodeInitialState_witness :
    (GraphCRUD.buildNode "w" "requirement" "W" (some "X") {} none (some true)).isDraft = true ∧
    (GraphCRUD.buildNode "w" "requirement" "W" (some "X") {} none (some true)).draftContent =
      (if hasContent (some "X") then some "X" else none) := by
  have h := (createNodeInitialState "w" "requirement" "W" (some "X") {} none
    (some true)).2.1 rfl
  exact ⟨h.1, h.2.2⟩

/-! ## C10: delete-closure recursion diverges on a cycle -/

/-- On the cyclic store the closure recursion never reaches a base case
at the inner cycle nodes, whatever the recursion budget. -/
lemma downstreamCycleAux : ∀ fuel,
    DeleteWorkflow.getAllDownstreamNodes cycGraph fuel "A" = none ∧
    DeleteWorkflow.getAllDownstreamNodes cycGraph fuel "B" = none := by
  intro fuel
  induction fuel with
  | zero => exact ⟨rfl, rfl⟩
  | succ n ih =>
    have hA : GraphCRUD.getEdgesFromNode cycGraph "A" =
        [⟨"e2", "A", "B", "right", "left", "", "next", false⟩] := rfl
    have hB : GraphCRUD.getEdgesFromNode cycGraph "B" =
        [⟨"e3", "B", "A", "right", "left", "", "next", false⟩] := rfl
    constructor
    · simp only [DeleteWorkflow.getAllDownstreamNodes, hA, List.foldl_cons,
        List.foldl_nil, ih.2, Option.map]
    · simp only [DeleteWorkflow.getAllDownstreamNodes, hB, List.foldl_cons,
        List.foldl_nil, ih.1, Option.map]

/-- C10: `get_all_downstream_nodes` recurses without a visited set, so on
a store whose edges reachable from the workflow root form a directed
cycle the transitive-closure computation of `delete_workflow` never
terminates: no recursion budget makes it return a set of ids. -/
theorem deleteClosureDivergesOnCycle :
    ∀ fuel, DeleteWorkflow.getAllDownstreamNodes cycGraph fuel "root" = none := by
  intro fuel
  cases fuel with
  | zero => rfl
  | succ n =>
    have hR : GraphCRUD.getEdgesFromNode cycGraph "root" =
        [⟨"e1", "root", "A", "right", "left", "", "next", false⟩] := rfl
    simp only [DeleteWorkflow.getAllDownstreamNodes, hR, List.foldl_cons,
      List.foldl_nil, (downstreamCycleAux n).1, Option.map]

/-! ## C2: node state invariant -/

/-- C2 counterexample: `create_node` with seed content and an explicit
draft request stores the content with `currentVersion = 0` (violating
`currentVersion == 0 ⇔ content empty`), and the `finalize_node` tool
clears `isDraft` while leaving `draftContent` set (violating
`isDraft ⇔ draftContent non-nil`). -/
theorem nodeInvariantViolated :
    ¬ nodeStateInvariant draftSeedNode ∧
    GraphCRUD.getNodeById (finalizeNodeTool draftSeedGraph "n1") "n1" =
      some { draftSeedNode with isDraft := false } ∧
    ¬ nodeStateInvariant { draftSeedNode with isDraft := false } := by
  decide

lemma applyUpdateDraft_fields (n : Node) (text : String) :
    (applyUpdateDraft n text).content = n.content ∧
    (applyUpdateDraft n text).currentVersion = n.currentVersion ∧
    (applyUpdateDraft n text).isDraft = true ∧
    (applyUpdateDraft n text).draftContent = some text := by
  unfold applyUpdateDraft
  cases h : n.draftSourceType with
  | some s => simp [h]
  | none =>
    simp only [h]
    split <;> simp

lemma finalizeNodeRecord_fields (n : Node) (cd : Option String) :
    (finalizeNodeRecord n cd).1.content = n.draftContent ∧
    (finalizeNodeRecord n cd).1.currentVersion = n.currentVersion + 1 ∧
    (finalizeNodeRecord n cd).1.isDraft = false ∧
    (finalizeNodeRecord n cd).1.draftContent = none := by
  simp [finalizeNodeRecord, createNodeVersion, updateNodeContent, clearDraft]

/-- Strengthened induction: every reachable node satisfies the state
invariant and, while a draft is pending, the pending draft is
non-blank. -/
lemma nodeReachable_aux (n : Node) (h : NodeReachable n) :
    nodeStateInvariant n ∧ (n.isDraft = true → hasContent n.draftContent = true) := by
  induction h with
  | create id type label content md pos =>
    constructor
    · constructor
      · cases hc : hasContent content <;> simp [GraphCRUD.buildNode, hc]
      · simp [GraphCRUD.buildNode]
    · intro hd
      simp [GraphCRUD.buildNode] at hd
  | draft m text _ htext ih =>
    obtain ⟨hcont, hver, hdr, hdc⟩ := applyUpdateDraft_fields m text
    constructor
    · constructor
      · rw [hver, hcont]; exact ih.1.1
      · rw [hdr, hdc]; simp
    · intro _
      rw [hdc]; exact htext
  | finalize m cd _ hdraft ih =>
    obtain ⟨hcont, hver, hdr, hdc⟩ := finalizeNodeRecord_fields m cd
    have hnb : hasContent m.draftContent = true := ih.2 hdraft
    constructor
    · constructor
      · rw [hver, hcont, hnb]; simp
      · rw [hdr, hdc]; simp
    · intro hcontra
      rw [hdr] at hcontra
      exact absurd hcontra (by simp)

/-- C2 (amended): the state invariant
(`currentVersion == 0 ⇔ content blank`, `isDraft ⇔ draftContent set`)
holds for every node reachable through `create_node` without an explicit
draft request, `update_step_draft` with non-blank text, and the
version-snapshotting finalize; the claim as stated fails because
`create_node` with a draft request stores seed content at version 0 and
the `finalize_node` tool clears `isDraft` without clearing
`draftContent`. -/
theorem nodeInvariantReachable (n : Node) (h : NodeReachable n) :
    nodeStateInvariant n :=
  (nodeReachable_aux n h).1

/-- Witness for C2: create → draft "X" → finalize reaches a node
satisfying the invariant. -/
theorem nodeInvariantReachable_witness :
    nodeStateInvariant
      (finalizeNodeRecord
        (applyUpdateDraft (GraphCRUD.buildNode "w" "requirement" "W") "X") none).1 :=
  nodeInvariantReachable _
    (NodeReachable.finalize _ none
      (NodeReachable.draft _ "X"
        (NodeReachable.create "w" "requirement" "W" (some "") {} none)
        (by decide))
      (by decide))

/-! ## C9: successor node construction -/

/-- C9 counterexample: the connecting edge created by `_create_next_node`
has edge type `"references"`, which is not a member of the edge-type
enumeration (and in particular is neither `"reference"` nor `"next"`). -/
theorem autoEdgeTypeOutsideEnum :
    (AutoWorkflowEngine.createNextNode ⟨[suffixedParentNode], [], []⟩
        suffixedParentNode requirementRule "n9" "e9").2.edges =
      [⟨"e9", "p", "n9", "right", "left", "自动流转", "references", false⟩] ∧
    "references" ∉ allEdgeTypes := by
  decide

/-- C9 (amended): the successor's label is the label template applied to
the parent label with the known stage suffixes stripped, its position is
offset +350 horizontally at the parent's vertical coordinate, it is
marked auto-created and draft with the parent id recorded, and the
connecting edge runs from parent to successor with edge type the literal
`"references"` — a string outside the edge-type enumeration
`\x7bnext, contain, reference\x7d`. -/
theorem successorNodeConstruction (g : Graph) (parent : Node) (cfg : FlowRule)
    (nid eid nt : String) (lt : Template) (p : Position)
    (hnt : cfg.nextType = some nt) (hlt : cfg.labelTemplate = some lt)
    (hpos : parent.position = some p) :
    (AutoWorkflowEngine.createNextNode g parent cfg nid eid).1.id = nid ∧
    (AutoWorkflowEngine.createNextNode g parent cfg nid eid).1.type = nt ∧
    (AutoWorkflowEngine.createNextNode g parent cfg nid eid).1.label =
      AutoWorkflowEngine.renderLabelTemplate lt
        (AutoWorkflowEngine.stripStageSuffixes parent.label) ∧
    (AutoWorkflowEngine.createNextNode g parent cfg nid eid).1.position =
      some ⟨p.x + 350, p.y⟩ ∧
    (AutoWorkflowEngine.createNextNode g parent cfg nid eid).1.isDraft = true ∧
    (AutoWorkflowEngine.createNextNode g parent cfg nid eid).1.nodeMetadata =
      ⟨some "in_progress", true, some parent.id⟩ ∧
    (AutoWorkflowEngine.createNextNode g parent cfg nid eid).2.edges =
      g.edges ++ [⟨eid, parent.id, nid, "right", "left", "自动流转", "references", false⟩] ∧
    "references" ∉ allEdgeTypes := by
  refine ⟨?_, ?_, ?_, ?_, ?_, ?_, ?_, by decide⟩ <;>
    simp [AutoWorkflowEngine.createNextNode, GraphCRUD.createNode,
      GraphCRUD.buildNode, GraphCRUD.createEdge, hnt, hlt, hpos, hasContent]

/-- Witness for C9 at a concrete parent and the `requirement` rule. -/
theorem successorNodeConstruction_witness :
    requirementRule.nextType = some "design" ∧
    suffixedParentNode.position = some ⟨200, 80⟩ ∧
    (AutoWorkflowEngine.createNextNode ⟨[suffixedParentNode], [], []⟩
        suffixedParentNode requirementRule "n9" "e9").1.position = some ⟨550, 80⟩ := by
  have h := successorNodeConstruction ⟨[suffixedParentNode], [], []⟩
    suffixedParentNode requirementRule "n9" "e9" "design"
    [.slot "parent_label", .lit "-设计"] ⟨200, 80⟩ rfl rfl rfl
  exact ⟨rfl, rfl, h.2.2.2.1⟩

/-! ## C5: best-effort prompt construction -/

lemma ctxLookup_ctxSet (ctx : List (String × String)) (k v q : String) :
    ctxLookup (ctxSet ctx k v) q = if k == q then some v else ctxLookup ctx q := by
  induction ctx with
  | nil => simp [ctxSet, ctxLookup]
  | cons hd tl ih =>
    obtain ⟨k', v'⟩ := hd
    simp only [ctxSet]
    by_cases h : k' = k
    · subst h
      by_cases hq : k' = q
      · subst hq; simp [ctxLookup]
      · simp [ctxLookup, hq]
    · have hb : (k' == k) = false := by simp [h]
      simp only [hb, Bool.false_eq_true, if_false]
      by_cases hq : k' = q
      · subst hq
        have hkq : (k == k') = false := by simp [Ne.symm h]
        simp [ctxLookup, hkq]
      · simp [ctxLookup, hq, ih]

lemma bucketAncestor_lookup_eq (q : String)
    (hq₁ : q ≠ "requirement_content") (hq₂ : q ≠ "design_content")
    (hq₃ : q ≠ "bug_report_content") (st : List (String × String) × Option String)
    (a : Node) :
    ctxLookup (AutoWorkflowEngine.bucketAncestor st a).1 q = ctxLookup st.1 q := by
  obtain ⟨ctx, agg⟩ := st
  unfold AutoWorkflowEngine.bucketAncestor
  have h₁ : (("requirement_content" : String) == q) = false := by
    simp [Ne.symm hq₁]
  have h₂ : (("design_content" : String) == q) = false := by simp [Ne.symm hq₂]
  have h₃ : (("bug_report_content" : String) == q) = false := by simp [Ne.symm hq₃]
  split_ifs <;> simp [ctxLookup_ctxSet, h₁, h₂, h₃]

lemma foldl_bucketAncestor_lookup (q : String)
    (hq₁ : q ≠ "requirement_content") (hq₂ : q ≠ "design_content")
    (hq₃ : q ≠ "bug_report_content") (ancestors : List Node) :
    ∀ st : List (String × String) × Option String,
      ctxLookup (ancestors.foldl AutoWorkflowEngine.bucketAncestor st).1 q =
        ctxLookup st.1 q := by
  induction ancestors with
  | nil => intro st; rfl
  | cons a tl ih =>
    intro st
    rw [List.foldl_cons, ih (AutoWorkflowEngine.bucketAncestor st a),
      bucketAncestor_lookup_eq q hq₁ hq₂ hq₃ st a]

/-- The context assembled by `_build_ai_prompt` never contains the
`implementation_content` slot. -/
lemma buildPromptContext_no_impl (parent : Node) (ancestors : List Node) :
    ctxLookup (AutoWorkflowEngine.buildPromptContext parent ancestors)
      "implementation_content" = none := by
  unfold AutoWorkflowEngine.buildPromptContext
  have hbase :
      ctxLookup [("parent_content", parent.content.getD "")] "implementation_content"
        = none := by simp [ctxLookup]
  have hfold := foldl_bucketAncestor_lookup "implementation_content"
    (by decide) (by decide) (by decide) ancestors
    ([("parent_content", parent.content.getD "")], none)
  have hres := hfold.trans hbase
  cases hagg : (ancestors.foldl AutoWorkflowEngine.bucketAncestor
      ([("parent_content", parent.content.getD "")], none)).2 with
  | none =>
    simpa [hagg] using hres
  | some aggText =>
    simp only [hagg]
    split
    · rw [ctxLookup_ctxSet]
      have hne : (("requirement_content" : String) == "implementation_content") = false := by
        decide
      simp only [hne, Bool.false_eq_true, if_false]
      exact hres
    · exact hres

lemma formatTemplate_ok_slot {t : Template} {ctx : List (String × String)}
    {k s : String} (hok : formatTemplate t ctx = .ok s)
    (hmem : TSeg.slot k ∈ t) : (ctxLookup ctx k).isSome := by
  induction t generalizing s with
  | nil => simp at hmem
  | cons seg rest ih =>
    cases seg with
    | lit str =>
      rw [formatTemplate] at hok
      cases hr : formatTemplate rest ctx with
      | error e => rw [hr] at hok; simp [Except.map] at hok
      | ok s' =>
        have hmem' : TSeg.slot k ∈ rest := by
          cases List.mem_cons.mp hmem with
          | inl h => cases h
          | inr h => exact h
        exact ih hr hmem'
    | slot k' =>
      rw [formatTemplate] at hok
      cases hl : ctxLookup ctx k' with
      | none => rw [hl] at hok; simp at hok
      | some v =>
        cases List.mem_cons.mp hmem with
        | inl h =>
          cases h
          rw [hl]; rfl
        | inr h =>
          rw [hl] at hok
          cases hr : formatTemplate rest ctx with
          | error e => rw [hr] at hok; simp [Except.map] at hok
          | ok s' => exact ih hr h

/-- The fallback context of `_build_ai_prompt` supplies exactly
`parent_content`, `requirement_content`, `design_content` and
`bug_report_content`, so the `code_review` prompt template fails at
`implementation_content` whatever the supplied values. -/
lemma codeReview_fallback_error (a b c d : String) :
    formatTemplate codeReviewRule.aiPromptTemplate
      [("parent_content", a), ("requirement_content", b),
       ("design_content", c), ("bug_report_content", d)] =
      .error "implementation_content" := by
  simp [codeReviewRule, formatTemplate, ctxLookup, Except.map]

/-- C5: prompt construction is not best-effort for the `code_review`
rule: its template references `implementation_content`, which neither the
ancestor bucketing nor the `KeyError` fallback ever supplies, so
`_build_ai_prompt` always raises (the claim says a missing slot is
substituted with the literal `"无"`); `on_node_finalized` then reports
the generation disabled with reason `generation_error`. -/
theorem codeReviewPromptAlwaysFails :
    (∀ (g : Graph) (parent : Node) (rules : String),
       AutoWorkflowEngine.buildAiPrompt g parent codeReviewRule rules =
         .error "implementation_content") ∧
    flowRules "code_review" = some codeReviewRule ∧
    (AutoWorkflowEngine.onNodeFinalized codeReviewGraph "cr" true "n1" "e1" "").1 =
      some ⟨"n1", "documentation", "评审-文档",
            some (AutoWorkflowEngine.AiGeneration.generationError
              "implementation_content")⟩ := by
  refine ⟨?_, rfl, by rfl⟩
  intro g parent rules
  unfold AutoWorkflowEngine.buildAiPrompt
  have hne : codeReviewRule.aiPromptTemplate.isEmpty = false := rfl
  simp only [hne, Bool.false_eq_true, if_false]
  have hctx := buildPromptContext_no_impl parent
    (GraphCRUD.parentNodesList g parent.id)
  cases hf : formatTemplate codeReviewRule.aiPromptTemplate
      (AutoWorkflowEngine.buildPromptContext parent
        (GraphCRUD.parentNodesList g parent.id)) with
  | ok p =>
    have hmem : TSeg.slot "implementation_content" ∈ codeReviewRule.aiPromptTemplate := by
      decide
    have hsome := formatTemplate_ok_slot hf hmem
    rw [hctx] at hsome
    simp at hsome
  | error e =>
    simp only [hf, codeReview_fallback_error, Except.map]

/-! ## C4: cycle safety of the ancestor walk -/

/-- Loop invariant of `get_parent_nodes`: with enough fuel (more than the
number of node ids not yet seen) the loop reaches a `break`, extends the
accumulator with parents that are store nodes not previously seen, visits
no node twice, and follows non-self parent edges nearest to farthest. -/
lemma getParentNodesLoop_spec (g : Graph) :
    ∀ (fuel : Nat) (cur : String) (seen : List String) (acc : List Node),
      (nodeIdsSet g \ seen.toFinset).card < fuel →
      ∃ tail,
        GraphCRUD.getParentNodesLoop g true fuel cur seen acc =
          some (acc.reverse ++ tail) ∧
        (∀ p ∈ tail, p ∈ g.nodes) ∧
        (∀ p ∈ tail, p.id ∉ seen) ∧
        (tail.map Node.id).Nodup ∧
        ParentChain g cur tail := by
  intro fuel
  induction fuel with
  | zero =>
    intro cur seen acc h
    exact absurd h (Nat.not_lt_zero _)
  | succ m ih =>
    intro cur seen acc hcard
    simp only [GraphCRUD.getParentNodesLoop]
    cases hpe : GraphCRUD.parentEdgeQuery g cur with
    | none =>
      exact ⟨[], by simp, by simp, by simp, by simp, ParentChain.nil cur⟩
    | some edge =>
      cases hpn : GraphCRUD.getNodeById g edge.source with
      | none =>
        exact ⟨[], by simp [hpn], by simp, by simp, by simp, ParentChain.nil cur⟩
      | some parent =>
        by_cases hmem : parent.id ∈ seen
        · refine ⟨[], ?_, by simp, by simp, by simp, ParentChain.nil cur⟩
          simp [hpn, hmem]
        · have hpid : parent.id = edge.source := getNodeById_id hpn
          have hpmem : parent ∈ g.nodes := getNodeById_mem hpn
          have hidset : parent.id ∈ nodeIdsSet g := by
            simp only [nodeIdsSet, List.mem_toFinset, List.mem_map]
            exact ⟨parent, hpmem, rfl⟩
          have hnotseen : parent.id ∉ seen.toFinset := by
            simpa [List.mem_toFinset] using hmem
          have hstep :
              (nodeIdsSet g \ (parent.id :: seen).toFinset).card <
                (nodeIdsSet g \ seen.toFinset).card := by
            rw [List.toFinset_cons, Finset.sdiff_insert,
              Finset.card_erase_of_mem (Finset.mem_sdiff.mpr ⟨hidset, hnotseen⟩)]
            have hpos : 0 < (nodeIdsSet g \ seen.toFinset).card :=
              Finset.card_pos.mpr ⟨parent.id, Finset.mem_sdiff.mpr ⟨hidset, hnotseen⟩⟩
            omega
          have hcard' : (nodeIdsSet g \ (parent.id :: seen).toFinset).card < m := by
            omega
          obtain ⟨tail, hres, hmemN, hnot, hnodup, hchain⟩ :=
            ih edge.source (parent.id :: seen) (parent :: acc) hcard'
          refine ⟨parent :: tail, ?_, ?_, ?_, ?_, ?_⟩
          · simp [hpn, hmem, hres, List.reverse_cons, List.append_assoc]
          · intro p hp
            rcases List.mem_cons.mp hp with h | h
            · subst h; exact hpmem
            · exact hmemN p h
          · intro p hp
            rcases List.mem_cons.mp hp with h | h
            · subst h; exact hmem
            · intro hcontra
              exact hnot p h (List.mem_cons_of_mem _ hcontra)
          · rw [List.map_cons, List.nodup_cons]
            refine ⟨?_, hnodup⟩
            intro hcontra
            obtain ⟨p, hp, hpeq⟩ := List.mem_map.mp hcontra
            have := hnot p hp
            rw [hpeq] at this
            exact this (List.mem_cons_self _ _)
          · have hedge := List.find?_some hpe
            have hedgemem : edge ∈ g.edges := List.mem_of_find?_eq_some hpe
            simp only [Bool.and_eq_true, beq_iff_eq, bne_iff_ne, ne_eq] at hedge
            refine ParentChain.cons cur parent tail ⟨hpmem, edge, hedgemem, ?_, ?_, ?_⟩ ?_
            · exact hedge.1
            · exact hpid.symm
            · rw [hedge.1]; exact hedge.2
            · rw [hpid]; exact hchain

/-- C4: for every store and node, `get_parent_nodes(id, recursive=True)`
terminates within the canonical fuel (the loop reaches a `break`), never
lists a node twice, returns at most the number of distinct node ids in
the store, and lists the ancestors nearest to farthest along non-self
parent edges. -/
theorem parentWalkCycleSafe (g : Graph) (nodeId : String) :
    ∃ res,
      GraphCRUD.getParentNodes g nodeId true = some res ∧
      (res.map Node.id).Nodup ∧
      res.length ≤ ((g.nodes.map Node.id).dedup).length ∧
      ParentChain g nodeId res := by
  have hfuel : (nodeIdsSet g \ ([] : List String).toFinset).card < g.nodes.length + 1 := by
    have h1 : (nodeIdsSet g).card ≤ (g.nodes.map Node.id).length :=
      (g.nodes.map Node.id).toFinset_card_le
    rw [List.length_map] at h1
    simpa using Nat.lt_succ_of_le h1
  obtain ⟨tail, hres, hmemN, _, hnodup, hchain⟩ :=
    getParentNodesLoop_spec g (g.nodes.length + 1) nodeId [] [] hfuel
  refine ⟨tail, by simpa [GraphCRUD.getParentNodes] using hres, hnodup, ?_, hchain⟩
  calc tail.length = (tail.map Node.id).length := (List.length_map _ _).symm
    _ = (tail.map Node.id).toFinset.card := (List.toFinset_card_of_nodup hnodup).symm
    _ ≤ (g.nodes.map Node.id).toFinset.card := by
        apply Finset.card_le_card
        intro x hx
        rw [List.mem_toFinset] at hx ⊢
        obtain ⟨p, hp, hpeq⟩ := List.mem_map.mp hx
        exact List.mem_map.mpr ⟨p, hmemN p hp, hpeq⟩
    _ = (g.nodes.map Node.id).dedup.length := List.card_toFinset _

/-! ## C1: idempotence of the auto-transition -/

/-- C1: re-running `on_node_finalized` on the same node is a no-op: the
second call returns `None` and leaves the store exactly as the first call
left it (no second successor node, no duplicate edge); and whenever an
outgoing edge already leads to a node of the rule's `next_type`, the call
returns `None` without touching the store.  `f₁` is the uuid drawn for
the first call's successor, fresh with respect to the store. -/
theorem autoTransitionIdempotent (g : Graph) (nodeId : String)
    (a₁ a₂ : Bool) (f₁ e₁ f₂ e₂ r₁ r₂ : String)
    (hfresh : ∀ n ∈ g.nodes, n.id ≠ f₁) :
    AutoWorkflowEngine.onNodeFinalized
        (AutoWorkflowEngine.onNodeFinalized g nodeId a₁ f₁ e₁ r₁).2 nodeId a₂ f₂ e₂ r₂ =
      (none, (AutoWorkflowEngine.onNodeFinalized g nodeId a₁ f₁ e₁ r₁).2) ∧
    (∀ (node : Node) (cfg : FlowRule) (nt : String) (n : Node),
       GraphCRUD.getNodeById g nodeId = some node →
       flowRules node.type = some cfg → cfg.nextType = some nt →
       AutoWorkflowEngine.findNextNode g nodeId nt = some n →
       AutoWorkflowEngine.onNodeFinalized g nodeId a₁ f₁ e₁ r₁ = (none, g)) := by
  constructor
  case right =>
    intro node cfg nt n h1 h2 h3 h4
    simp [AutoWorkflowEngine.onNodeFinalized, h1, h2, h3, h4]
  case left =>
    cases hn : GraphCRUD.getNodeById g nodeId with
    | none =>
      have hfix : AutoWorkflowEngine.onNodeFinalized g nodeId a₁ f₁ e₁ r₁ = (none, g) := by
        simp [AutoWorkflowEngine.onNodeFinalized, hn]
      rw [hfix]
      simp [AutoWorkflowEngine.onNodeFinalized, hn]
    | some node =>
      cases hr : flowRules node.type with
      | none =>
        have hfix : AutoWorkflowEngine.onNodeFinalized g nodeId a₁ f₁ e₁ r₁ = (none, g) := by
          simp [AutoWorkflowEngine.onNodeFinalized, hn, hr]
        rw [hfix]
        simp [AutoWorkflowEngine.onNodeFinalized, hn, hr]
      | some cfg =>
        cases ht : cfg.nextType with
        | none =>
          have hfix : AutoWorkflowEngine.onNodeFinalized g nodeId a₁ f₁ e₁ r₁ = (none, g) := by
            simp [AutoWorkflowEngine.onNodeFinalized, hn, hr, ht]
          rw [hfix]
          simp [AutoWorkflowEngine.onNodeFinalized, hn, hr, ht]
        | some nt =>
          cases hfind : AutoWorkflowEngine.findNextNode g nodeId nt with
          | some nx =>
            have hfix : AutoWorkflowEngine.onNodeFinalized g nodeId a₁ f₁ e₁ r₁ = (none, g) := by
              simp [AutoWorkflowEngine.onNodeFinalized, hn, hr, ht, hfind]
            rw [hfix]
            simp [AutoWorkflowEngine.onNodeFinalized, hn, hr, ht, hfind]
          | none =>
            rcases hcr : AutoWorkflowEngine.createNextNode g node cfg f₁ e₁ with ⟨nx, g1⟩
            have hnx : nx = (AutoWorkflowEngine.createNextNode g node cfg f₁ e₁).1 := by
              rw [hcr]
            have hg1x : g1 = (AutoWorkflowEngine.createNextNode g node cfg f₁ e₁).2 := by
              rw [hcr]
            have hid : nx.id = f₁ := by
              rw [hnx]
              simp [AutoWorkflowEngine.createNextNode, GraphCRUD.createNode,
                GraphCRUD.buildNode]
            have htype : nx.type = nt := by
              rw [hnx]
              simp [AutoWorkflowEngine.createNextNode, GraphCRUD.createNode,
                GraphCRUD.buildNode, ht]
            have hnodes : g1.nodes = g.nodes ++ [nx] := by
              rw [hg1x, hnx]
              simp [AutoWorkflowEngine.createNextNode, GraphCRUD.createNode,
                GraphCRUD.createEdge, GraphCRUD.buildNode]
            have hedges : g1.edges = g.edges ++
                [⟨e₁, node.id, nx.id, "right", "left", "自动流转", "references", false⟩] := by
              rw [hg1x, hnx]
              simp [AutoWorkflowEngine.createNextNode, GraphCRUD.createNode,
                GraphCRUD.createEdge, GraphCRUD.buildNode]
            have hsecond : (AutoWorkflowEngine.onNodeFinalized g nodeId a₁ f₁ e₁ r₁).2 = g1 := by
              simp [AutoWorkflowEngine.onNodeFinalized, hn, hr, ht, hfind, hcr]
            have hnid : node.id = nodeId := getNodeById_id hn
            have hne_f : nodeId ≠ f₁ := by
              rw [← hnid]
              exact hfresh node (getNodeById_mem hn)
            have hlook : GraphCRUD.getNodeById g1 nodeId = some node := by
              have hn' : g.nodes.find? (fun n => n.id == nodeId) = some node := hn
              unfold GraphCRUD.getNodeById
              rw [hnodes, List.find?_append, hn']
              rfl
            have hlookf : GraphCRUD.getNodeById g1 f₁ = some nx := by
              have hnone : g.nodes.find? (fun n => n.id == f₁) = none :=
                getNodeById_eq_none hfresh
              unfold GraphCRUD.getNodeById
              rw [hnodes, List.find?_append, hnone]
              simp [List.find?, hid]
            have hfind1 : ∃ res, AutoWorkflowEngine.findNextNode g1 nodeId nt = some res := by
              unfold AutoWorkflowEngine.findNextNode GraphCRUD.getEdgesFromNode
              rw [hedges, List.filter_append]
              have hsrc : (g.edges.filter (fun e => e.source == nodeId)) ++
                  (List.filter (fun e => e.source == nodeId)
                    [⟨e₁, node.id, nx.id, "right", "left", "自动流转", "references", false⟩]) =
                  (g.edges.filter (fun e => e.source == nodeId)) ++
                  [⟨e₁, node.id, nx.id, "right", "left", "自动流转", "references", false⟩] := by
                simp [List.filter, hnid]
              rw [hsrc, List.findSome?_append]
              have hnew : List.findSome?
                  (fun (edge : Edge) => if edge.target == nodeId then none
                    else match GraphCRUD.getNodeById g1 edge.target with
                      | some candidate =>
                        if candidate.type == nt then some candidate else none
                      | none => none)
                  [⟨e₁, node.id, nx.id, "right", "left", "自动流转", "references", false⟩] =
                  some nx := by
                have htgt : (nx.id == nodeId) = false := by
                  rw [hid]
                  exact beq_eq_false_iff_ne.mpr (Ne.symm hne_f)
                simp only [List.findSome?_cons, List.findSome?_nil, htgt,
                  Bool.false_eq_true, if_false]
                rw [hid, hlookf]
                simp [htype]
              rw [hnew]
              cases hX : List.findSome?
                  (fun (edge : Edge) => if edge.target == nodeId then none
                    else match GraphCRUD.getNodeById g1 edge.target with
                      | some candidate =>
                        if candidate.type == nt then some candidate else none
                      | none => none)
                  (g.edges.filter (fun e => e.source == nodeId)) with
              | some a => exact ⟨a, rfl⟩
              | none => exact ⟨nx, rfl⟩
            obtain ⟨res, hres⟩ := hfind1
            rw [hsecond]
            simp [AutoWorkflowEngine.onNodeFinalized, hlook, hr, ht, hres]

/-- Witness for C1 on the concrete one-node store. -/
theorem autoTransitionIdempotent_witness :
    AutoWorkflowEngine.onNodeFinalized
        (AutoWorkflowEngine.onNodeFinalized emptyReqGraph "R" true "n1" "e1" "").2
        "R" true "n2" "e2" "" =
      (none, (AutoWorkflowEngine.onNodeFinalized emptyReqGraph "R" true "n1" "e1" "").2) :=
  (autoTransitionIdempotent emptyReqGraph "R" true true "n1" "e1" "n2" "e2" "" ""
    (by decide)).1

/-! ## C3: finalize contract -/

lemma find?_replace {l : List Node} {i : String} {node node' : Node}
    (h : l.find? (fun n => n.id == i) = some node) (hid : node'.id = i) :
    (l.map (fun n => if n.id == i then node' else n)).find?
      (fun n => n.id == i) = some node' := by
  induction l with
  | nil => simp at h
  | cons hd tl ih =>
    by_cases hh : hd.id = i
    · simp [List.find?_cons, hh, hid]
    · have hb : (hd.id == i) = false := by simp [hh]
      rw [List.find?_cons_of_neg _ (by simp [hh])] at h
      simp only [List.map_cons]
      rw [List.find?_cons_of_neg _ (by simp [hb]), ih h]

lemma applyUpdateDraft_id (n : Node) (t : String) :
    (applyUpdateDraft n t).id = n.id := by
  unfold applyUpdateDraft
  cases h : n.draftSourceType with
  | some s => simp [h]
  | none =>
    simp only [h]
    split <;> simp

lemma finalizeNodeRecord_id (n : Node) (cd : Option String) :
    (finalizeNodeRecord n cd).1.id = n.id := by
  simp [finalizeNodeRecord, createNodeVersion, updateNodeContent, clearDraft]

lemma finalizeNodeRecord_snd (n : Node) (cd : Option String) :
    (finalizeNodeRecord n cd).2 =
      { nodeId := n.id
        version := n.currentVersion + 1
        content := n.draftContent
        sourceType := n.draftSourceType
        conversationId := n.draftConversationId
        messageId := n.draftMessageId
        basedOnVersion := n.draftBasedOnVersion
        changeDescription := cd } := by
  simp [finalizeNodeRecord, createNodeVersion]

/-- Successful finalize, unfolded once. -/
lemma finalizeStep_ok {g : Graph} {nodeId : String} {node : Node} (cd : Option String)
    (hn : GraphCRUD.getNodeById g nodeId = some node) (hd : node.isDraft = true) :
    finalizeStep g nodeId cd = .ok
      { GraphCRUD.replaceNode g nodeId (finalizeNodeRecord node cd).1 with
        versions := g.versions ++ [(finalizeNodeRecord node cd).2] } := by
  unfold finalizeStep validateNodeForFinalization
  rw [hn]
  simp [hd, finalizeNodeRecord, createNodeVersion]

/-- C3: for an existing node, finalize fails with `InvalidOperation`
("没有草稿可以定稿") exactly when no draft is pending, leaving the store
untouched; with a pending draft it atomically appends a `NodeVersion`
snapshot of `draftContent` tagged with the source kind and
`basedOnVersion`, sets `content = draftContent`, increments
`currentVersion` by exactly one, and clears every draft field; and
`UpdateDraft(n, text)` followed by finalize yields `content = text` and a
new `NodeVersion` with that content. -/
theorem finalizeContract (g : Graph) (nodeId : String) (node : Node)
    (cd : Option String) (hn : GraphCRUD.getNodeById g nodeId = some node) :
    (node.isDraft = false →
      finalizeStep g nodeId cd = .error (.invalidOperation "没有草稿可以定稿")) ∧
    (node.isDraft = true → ∃ g',
      finalizeStep g nodeId cd = .ok g' ∧
      g'.versions = g.versions ++
        [{ nodeId := node.id
           version := node.currentVersion + 1
           content := node.draftContent
           sourceType := node.draftSourceType
           conversationId := node.draftConversationId
           messageId := node.draftMessageId
           basedOnVersion := node.draftBasedOnVersion
           changeDescription := cd }] ∧
      GraphCRUD.getNodeById g' nodeId = some
        { node with
          content := node.draftContent
          currentVersion := node.currentVersion + 1
          draftContent := none
          draftSourceType := none
          draftConversationId := none
          draftMessageId := none
          draftBasedOnVersion := none
          draftAiOriginalContent := none
          isDraft := false
          draftUpdatedAt := false }) ∧
    (∀ (text : String) (g₁ : Graph), updateDraft g nodeId text = some g₁ → ∃ g₂,
      finalizeStep g₁ nodeId cd = .ok g₂ ∧
      (GraphCRUD.getNodeById g₂ nodeId).map Node.content = some (some text) ∧
      ∃ v, g₂.versions = g₁.versions ++ [v] ∧ v.content = some text ∧
        v.version = node.currentVersion + 1) := by
  have hnid : node.id = nodeId := getNodeById_id hn
  refine ⟨?_, ?_, ?_⟩
  · intro hnd
    unfold finalizeStep validateNodeForFinalization
    rw [hn]
    simp [hnd]
  · intro hd
    refine ⟨_, finalizeStep_ok cd hn hd, ?_, ?_⟩
    · rw [finalizeNodeRecord_snd]
    · show GraphCRUD.getNodeById (GraphCRUD.replaceNode g nodeId _) nodeId = _
      unfold GraphCRUD.getNodeById GraphCRUD.replaceNode
      rw [find?_replace hn (by rw [finalizeNodeRecord_id, hnid])]
      simp [finalizeNodeRecord, createNodeVersion, updateNodeContent, clearDraft]
  · intro text g₁ hup
    unfold updateDraft at hup
    rw [hn] at hup
    have hg₁ : g₁ = GraphCRUD.replaceNode g nodeId (applyUpdateDraft node text) := by
      exact (Option.some_injective _ hup).symm
    obtain ⟨hcont, hver, hdr, hdc⟩ := applyUpdateDraft_fields node text
    have hid₁ : (applyUpdateDraft node text).id = nodeId := by
      rw [applyUpdateDraft_id, hnid]
    have hn₁ : GraphCRUD.getNodeById g₁ nodeId = some (applyUpdateDraft node text) := by
      rw [hg₁]
      unfold GraphCRUD.getNodeById GraphCRUD.replaceNode
      exact find?_replace hn hid₁
    refine ⟨_, finalizeStep_ok cd hn₁ hdr, ?_, ?_⟩
    · show (GraphCRUD.getNodeById (GraphCRUD.replaceNode g₁ nodeId _) nodeId).map
        Node.content = _
      unfold GraphCRUD.getNodeById GraphCRUD.replaceNode
      rw [find?_replace hn₁ (by rw [finalizeNodeRecord_id, hid₁])]
      simp only [Option.map_some']
      have := (finalizeNodeRecord_fields (applyUpdateDraft node text) cd).1
      rw [this, hdc]
    · refine ⟨(finalizeNodeRecord (applyUpdateDraft node text) cd).2, rfl, ?_, ?_⟩
      · rw [finalizeNodeRecord_snd]
        exact hdc
      · rw [finalizeNodeRecord_snd]
        simpa using hver

/-- Witness for C3: finalizing the never-drafted node `R` fails with the
`InvalidOperation` error. -/
theorem finalizeContract_witness :
    finalizeStep emptyReqGraph "R" none =
      .error (.invalidOperation "没有草稿可以定稿") :=
  (finalizeContract emptyReqGraph "R" emptyReqNode none rfl).1 rfl

/-! ## C8: safe vs forced workflow delete -/

/-- The deletion loop removes exactly the listed nodes and their outgoing
edges. -/
lemma deleteNodesLoop_spec (ids : List String) : ∀ g : Graph,
    (DeleteWorkflow.deleteNodesLoop g ids).1.nodes =
      g.nodes.filter (fun n => !(ids.contains n.id)) ∧
    (DeleteWorkflow.deleteNodesLoop g ids).1.edges =
      g.edges.filter (fun e => !(ids.contains e.source)) := by
  induction ids with
  | nil =>
    intro g
    simp [DeleteWorkflow.deleteNodesLoop]
  | cons i rest ih =>
    intro g
    unfold DeleteWorkflow.deleteNodesLoop
    have hmid : ∀ g₂ : Graph,
        g₂.nodes = g.nodes.filter (fun n => !(n.id == i)) →
        g₂.edges = g.edges.filter (fun e => !(e.source == i)) →
        (DeleteWorkflow.deleteNodesLoop g₂ rest).1.nodes =
          g.nodes.filter (fun n => !((i :: rest).contains n.id)) ∧
        (DeleteWorkflow.deleteNodesLoop g₂ rest).1.edges =
          g.edges.filter (fun e => !((i :: rest).contains e.source)) := by
      intro g₂ hN hE
      obtain ⟨ihN, ihE⟩ := ih g₂
      constructor
      · rw [ihN, hN, List.filter_filter]
        apply List.filter_congr
        intro x _
        by_cases hxi : x.id = i
        · simp [hxi, List.contains_cons]
        · simp [hxi, List.contains_cons]
      · rw [ihE, hE, List.filter_filter]
        apply List.filter_congr
        intro x _
        by_cases hxi : x.source = i
        · simp [hxi, List.contains_cons]
        · simp [hxi, List.contains_cons]
    cases hx : GraphCRUD.getNodeById
        { g with edges := g.edges.filter (fun e => !(e.source == i)) } i with
    | some n =>
      simp only [hx]
      exact hmid _ rfl rfl
    | none =>
      simp only [hx]
      have hall : ∀ n ∈ g.nodes, (n.id == i) = false := by
        intro n hnmem
        have := List.find?_eq_none.mp hx n hnmem
        simpa using this
      refine hmid _ ?_ rfl
      exact (List.filter_eq_self.mpr (fun n hnmem => by simp [hall n hnmem])).symm

/-- C8: with a draft node in the transitive closure, safe delete
(`force=false`) refuses (active-workflow refusal or unfinished-workflow
refusal) and deletes nothing, while forced delete (`force=true`) removes
every node of the closure and every edge leaving it, and clears the
active-workflow pointer exactly when it pointed at this workflow. -/
theorem deleteWorkflowSafety (st : DeleteWorkflow.CtxState) (wid : String)
    (root : Node) (fuel : Nat) (closure : List String)
    (hdig : DeleteWorkflow.isDigitStr wid = false)
    (hroot : GraphCRUD.getNodeById st.graph wid = some root)
    (hclosure : DeleteWorkflow.getAllDownstreamNodes st.graph fuel root.id =
      some closure)
    (hdraft : closure.any (fun i =>
        match GraphCRUD.getNodeById st.graph i with
        | some n => n.isDraft
        | none => false) = true) :
    DeleteWorkflow.deleteWorkflow st wid false fuel =
      ((if st.activeWorkflowId == some root.id then
          DeleteWorkflow.DeleteResult.activeRefused
        else DeleteWorkflow.DeleteResult.draftRefused), st) ∧
    (∃ dn de g',
      DeleteWorkflow.deleteWorkflow st wid true fuel =
        (DeleteWorkflow.DeleteResult.deleted dn de,
         { graph := g'
           activeWorkflowId := if st.activeWorkflowId == some root.id then none
             else st.activeWorkflowId }) ∧
      g'.nodes = st.graph.nodes.filter (fun n => !(closure.contains n.id)) ∧
      g'.edges = st.graph.edges.filter (fun e => !(closure.contains e.source))) := by
  have hresolve : DeleteWorkflow.resolveRoot st.graph wid = some root := by
    unfold DeleteWorkflow.resolveRoot
    simp [hdig, hroot]
  constructor
  · unfold DeleteWorkflow.deleteWorkflow
    rw [hresolve]
    cases hA : st.activeWorkflowId == some root.id with
    | true => simp [hA]
    | false => simp [hA, hclosure, hdraft]
  · rcases hdl : DeleteWorkflow.deleteNodesLoop st.graph closure with ⟨g', dn, de⟩
    refine ⟨dn, de, g', ?_, ?_, ?_⟩
    · unfold DeleteWorkflow.deleteWorkflow
      rw [hresolve]
      simp [hclosure, hdl]
    · have := (deleteNodesLoop_spec closure st.graph).1
      rw [hdl] at this
      exact this
    · have := (deleteNodesLoop_spec closure st.graph).2
      rw [hdl] at this
      exact this

/-- Witness for C8 on the concrete two-node workflow (finalized root
`r1`, draft child `d1`, active pointer at `r1`). -/
theorem deleteWorkflowSafety_witness :
    DeleteWorkflow.deleteWorkflow ⟨wfGraph, some "r1"⟩ "r1" false 5 =
      (DeleteWorkflow.DeleteResult.activeRefused, ⟨wfGraph, some "r1"⟩) ∧
    (∃ dn de g',
      DeleteWorkflow.deleteWorkflow ⟨wfGraph, some "r1"⟩ "r1" true 5 =
        (DeleteWorkflow.DeleteResult.deleted dn de, { graph := g', activeWorkflowId := none }) ∧
      g'.nodes = wfGraph.nodes.filter (fun n => !((["r1", "d1"] : List String).contains n.id)) ∧
      g'.edges = wfGraph.edges.filter (fun e => !((["r1", "d1"] : List String).contains e.source))) := by
  have h := deleteWorkflowSafety ⟨wfGraph, some "r1"⟩ "r1" wfRootNode 5 ["r1", "d1"]
    (by decide) (by rfl) (by rfl) (by decide)
  constructor
  · have h1 := h.1
    simpa using h1
  · have h2 := h.2
    simpa using h2

end Ads
